import Mathlib

/-!
Shallow embedding of the Orb-GPU-Particles renderer (src/scripts.js).

The repository renders a sphere of particles.  A vertex shader displaces each
particle away from the cursor in normalized device coordinates and adds a small
breathing oscillation; a fragment shader draws each particle as a soft circular
sprite; a CPU-side generator samples the rest positions uniformly from a solid
sphere and rebuilds the whole field when the particle count changes.

Modelling conventions:
  - GLSL floats are embedded as real numbers.
  - The value of `normalize(v)` is undefined in GLSL when `length(v) = 0`
    (a NaN in practice); we embed it as `Option`, with `none` standing for the
    undefined value, and propagate `none` through the computations that
    consume it.  Components of the final position that never touch the
    undefined value stay plain reals.
  - Matrices are 4 by 4 real matrices, vectors are `Fin 4 → ℝ` or pairs.
  - The regeneration routine `createParticles` is modelled twice: as the pure
    field generator `genField` (the loop body), and as the ordered trace of
    scene and GPU resource operations `createParticlesTrace` (remove, dispose,
    build, install) for the lifecycle claims.
-/

abbrev Vec2 := ℝ × ℝ

abbrev Vec3 := ℝ × ℝ × ℝ

abbrev Mat4 := Matrix (Fin 4) (Fin 4) ℝ

/-- The per-frame uniforms consumed by the shaders (src/scripts.js lines 30-35
and the material construction at lines 129-143). -/
structure Uniforms where
  uTime : ℝ
  uMouse : Vec2
  uInteractionRadius : ℝ
  uRepulsionStrength : ℝ
  uColor1 : Vec3
  uColor2 : Vec3

/-- GLSL `vec4(p, w)`. -/
def vec4of (p : Vec3) (w : ℝ) : Fin 4 → ℝ := ![p.1, p.2.1, p.2.2, w]

/-- GLSL `length` on `vec2`. -/
noncomputable def glslLength2 (v : Vec2) : ℝ := Real.sqrt (v.1 ^ 2 + v.2 ^ 2)

/-- GLSL `normalize` on `vec2`.  It divides by `length(v)`, which is undefined
when the length is zero, i.e. exactly when `v = (0, 0)`; the undefined value is
embedded as `none`. -/
noncomputable def glslNormalize (v : Vec2) : Option Vec2 :=
  if v = (0, 0) then none
  else some (v.1 / glslLength2 v, v.2 / glslLength2 v)

/-- GLSL `clamp`. -/
noncomputable def glslClamp (x minVal maxVal : ℝ) : ℝ := min (max x minVal) maxVal

/-- GLSL `smoothstep`. -/
noncomputable def smoothstep (edge0 edge1 x : ℝ) : ℝ :=
  let t := glslClamp ((x - edge0) / (edge1 - edge0)) 0 1
  t * t * (3 - 2 * t)

/-- GLSL `mix` on scalars: `mix(x, y, a) = x * (1 - a) + y * a`. -/
def glslMix (x y a : ℝ) : ℝ := x * (1 - a) + y * a

/-- The repulsion magnitude of the vertex shader (src/scripts.js lines 47-50):
zero, overwritten with the linear falloff when `distance < uInteractionRadius`. -/
noncomputable def repulsionMagnitude (distance uInteractionRadius uRepulsionStrength : ℝ) : ℝ :=
  if distance < uInteractionRadius then
    (1 - distance / uInteractionRadius) * uRepulsionStrength
  else 0

/-- Breathing offset added to `finalPosition.x` (src/scripts.js line 58). -/
noncomputable def breathX (uTime aRandom : ℝ) : ℝ :=
  Real.sin (uTime * 0.5 + aRandom * 10) * 0.01

/-- Breathing offset added to `finalPosition.y` (src/scripts.js line 59). -/
noncomputable def breathY (uTime aRandom : ℝ) : ℝ :=
  Real.cos (uTime * 0.5 + aRandom * 10) * 0.01

/-- Breathing offset added to `finalPosition.z` (src/scripts.js line 60). -/
noncomputable def breathZ (uTime aRandom : ℝ) : ℝ :=
  Real.sin (uTime * 0.5 + aRandom * 10) * 0.01

/-- The color computation of the vertex shader (src/scripts.js line 66):
`mix(uColor1, uColor2, (restingPosition.y + 1.5) / 3.0)`, componentwise. -/
noncomputable def vertexColor (uColor1 uColor2 : Vec3) (restY : ℝ) : Vec3 :=
  (glslMix uColor1.1 uColor2.1 ((restY + 1.5) / 3),
   glslMix uColor1.2.1 uColor2.2.1 ((restY + 1.5) / 3),
   glslMix uColor1.2.2 uColor2.2.2 ((restY + 1.5) / 3))

/-- The outputs of one vertex-shader invocation.  `finalPos` is the displaced
model-space position before reprojection; its x and y components are `Option`
because the undefined `normalize` value can flow into them, while z never
touches it. -/
structure VSOut where
  finalPos : Option ℝ × Option ℝ × ℝ
  glPosition : Option (Fin 4 → ℝ)
  glPointSize : Option ℝ
  vColor : Vec3

/-- One invocation of the vertex shader (src/scripts.js lines 42-67), as a
function of the camera matrices, the frame uniforms and the per-particle
attributes `restingPosition` and `aRandom`. -/
noncomputable def vertexShaderRun (projectionMatrix modelViewMatrix : Mat4)
    (U : Uniforms) (restingPosition : Vec3) (aRandom : ℝ) : VSOut :=
  let screenPos := (projectionMatrix * modelViewMatrix).mulVec (vec4of restingPosition 1)
  let screenXY : Vec2 := (screenPos 0 / screenPos 3, screenPos 1 / screenPos 3)
  let distance := glslLength2 (screenXY - U.uMouse)
  let magnitude := repulsionMagnitude distance U.uInteractionRadius U.uRepulsionStrength
  let direction := glslNormalize (screenXY - U.uMouse)
  let repulsion := direction.map fun dir => (dir.1 * magnitude, dir.2 * magnitude)
  let finalX := repulsion.map fun rep => restingPosition.1 + rep.1 + breathX U.uTime aRandom
  let finalY := repulsion.map fun rep => restingPosition.2.1 + rep.2 + breathY U.uTime aRandom
  let finalZ := restingPosition.2.2 + breathZ U.uTime aRandom
  let modelViewPosition :=
    finalX.bind fun x => finalY.map fun y => modelViewMatrix.mulVec (vec4of (x, y, finalZ) 1)
  ⟨(finalX, finalY, finalZ),
   modelViewPosition.map fun mv => projectionMatrix.mulVec mv,
   modelViewPosition.map fun mv => 4 * (1 / -(mv 2)),
   vertexColor U.uColor1 U.uColor2 restingPosition.2.1⟩

/-- The alpha computed by the fragment shader (src/scripts.js lines 74-75):
`1.0 - smoothstep(0.45, 0.5, length(gl_PointCoord - vec2(0.5)))`. -/
noncomputable def fragAlpha (pointCoord : Vec2) : ℝ :=
  1 - smoothstep 0.45 0.5 (glslLength2 (pointCoord - (0.5, 0.5)))

/-- One invocation of the fragment shader (src/scripts.js lines 73-82):
`none` models a discarded fragment, `some` carries `gl_FragColor`. -/
noncomputable def fragOutput (vColor : Vec3) (pointCoord : Vec2) : Option (Vec3 × ℝ) :=
  if fragAlpha pointCoord < 0.01 then none
  else some (vColor, fragAlpha pointCoord)

/-- The constant `arrangementRadius = 1.5` (src/scripts.js line 87). -/
noncomputable def arrangementRadius : ℝ := 1.5

/-- JS `Math.cbrt`: the real cube root, odd in its argument. -/
noncomputable def cbrt (v : ℝ) : ℝ :=
  if 0 ≤ v then v ^ ((1 : ℝ) / 3) else -((-v) ^ ((1 : ℝ) / 3))

/-- One iteration of the generation loop (src/scripts.js lines 102-114), as a
function of the stream of `Math.random()` results: iteration `i` consumes the
draws `rand (4*i)` (theta), `rand (4*i+1)` (phi), `rand (4*i+2)` (r) and
`rand (4*i+3)` (the seed pushed into `randoms`), returning the Cartesian
position pushed into `positions` and `restingPositions`. -/
noncomputable def genCoords (rand : ℕ → ℝ) (i : ℕ) : Vec3 :=
  let theta := rand (4 * i) * (2 * Real.pi)
  let phi := Real.arccos (rand (4 * i + 1) * 2 - 1)
  let r := arrangementRadius * cbrt (rand (4 * i + 2))
  (r * Real.sin phi * Real.cos theta,
   r * Real.sin phi * Real.sin theta,
   r * Real.cos phi)

/-- The three parallel attribute arrays built by `createParticles`
(src/scripts.js lines 98-114). -/
structure ParticleField where
  positions : List ℝ
  restingPositions : List ℝ
  randoms : List ℝ

/-- The generation loop of `createParticles` (src/scripts.js lines 102-114):
iteration `i` pushes the three coordinates of `genCoords rand i` onto both
position arrays and one further draw onto `randoms`. -/
noncomputable def genField (rand : ℕ → ℝ) : ℕ → ParticleField
  | 0 => ⟨[], [], []⟩
  | n + 1 =>
    let F := genField rand n
    let p := genCoords rand n
    ⟨F.positions ++ [p.1, p.2.1, p.2.2],
     F.restingPositions ++ [p.1, p.2.1, p.2.2],
     F.randoms ++ [rand (4 * n + 3)]⟩

/-- The rest position of particle `i`, read back from the flat
`restingPositions` array (three scalars per particle). -/
noncomputable def restTriple (F : ParticleField) (i : ℕ) : Vec3 :=
  (F.restingPositions.getD (3 * i) 0,
   F.restingPositions.getD (3 * i + 1) 0,
   F.restingPositions.getD (3 * i + 2) 0)

/-- Euclidean norm of an embedded `vec3`. -/
noncomputable def norm3 (p : Vec3) : ℝ := Real.sqrt (p.1 ^ 2 + p.2.1 ^ 2 + p.2.2 ^ 2)

/-- The scene and GPU resource operations performed by `createParticles`
(src/scripts.js lines 90-147), in program order. -/
inductive RegenEvent : Type
  | removeOld
  | disposeOldGeometry
  | disposeOldMaterial
  | buildGeometry
  | buildMaterial
  | installNew
deriving DecidableEq

/-- The ordered trace of `createParticles` (src/scripts.js lines 90-147):
when an old field exists it is removed from the scene and its geometry and
material are disposed first (lines 91-95); only then are the new geometry with
its attributes (lines 97-127) and the new material (lines 129-143) built, and
the new `THREE.Points` object added to the scene (lines 145-146). -/
def createParticlesTrace (oldExists : Bool) : List RegenEvent :=
  if oldExists then
    [RegenEvent.removeOld, RegenEvent.disposeOldGeometry, RegenEvent.disposeOldMaterial,
     RegenEvent.buildGeometry, RegenEvent.buildMaterial, RegenEvent.installNew]
  else
    [RegenEvent.buildGeometry, RegenEvent.buildMaterial, RegenEvent.installNew]

/-- Events that release GPU resources of the old field. -/
def isDispose : RegenEvent → Bool
  | RegenEvent.disposeOldGeometry => true
  | RegenEvent.disposeOldMaterial => true
  | _ => false

/-- Events that build parts of the new field. -/
def isBuild : RegenEvent → Bool
  | RegenEvent.buildGeometry => true
  | RegenEvent.buildMaterial => true
  | _ => false

/-- The ordering asserted by the claim: in the trace, every build step comes
before the swap (`installNew`), and the swap comes before every release of the
old GPU resources. -/
def BuildThenSwapThenRelease (tr : List RegenEvent) : Prop :=
  (∀ i j : Fin tr.length, isBuild (tr.get i) = true →
    tr.get j = RegenEvent.installNew → i < j) ∧
  (∀ i j : Fin tr.length, tr.get i = RegenEvent.installNew →
    isDispose (tr.get j) = true → i < j)

/-- Effect of one regeneration event on the number of live (scene-installed)
fields. -/
def stepLive (s : ℕ) : RegenEvent → ℕ
  | RegenEvent.removeOld => s - 1
  | RegenEvent.installNew => s + 1
  | _ => s

/-- Number of live fields after executing a trace, starting from `s`. -/
def liveAfter (s : ℕ) : List RegenEvent → ℕ
  | [] => s
  | e :: tr => liveAfter (stepLive s e) tr

/-- Largest number of live fields reached at any point while executing a
trace, starting from `s`. -/
def maxLive (s : ℕ) : List RegenEvent → ℕ
  | [] => s
  | e :: tr => max s (maxLive (stepLive s e) tr)

/-- Concrete uniforms used by witnesses: time 2, cursor (0.1, 0.2), radius 0.8,
strength 0.5, the default colors of the source. -/
noncomputable def uniformsA : Uniforms := ⟨2, (0.1, 0.2), 0.8, 0.5, (1, 0, 0.5), (0, 1, 1)⟩

/-- Concrete uniforms sharing time and colors with `uniformsA` but with a
different cursor, interaction radius and repulsion strength. -/
noncomputable def uniformsB : Uniforms := ⟨2, (-0.3, 0.4), 1.2, 1.5, (1, 0, 0.5), (0, 1, 1)⟩

/-- Concrete uniforms whose cursor coincides with the projection of the rest
position `(0, 0, 0)` under identity matrices. -/
noncomputable def cursorOnParticle : Uniforms := ⟨0, (0, 0), 0.8, 0.5, (1, 0, 0.5), (0, 1, 1)⟩

/-- Claim C1: the repulsion magnitude equals `(1 - d / interactionRadius) *
repulsionStrength` when `d < interactionRadius` and `0` otherwise; it is
monotonically non-increasing in `d`, exactly `0` at and beyond
`interactionRadius`, and tends to `repulsionStrength` as `d` approaches `0`. -/
theorem repulsion_magnitude_profile (R S : ℝ) (hR : 0 < R) (hS : 0 ≤ S) :
    (∀ d, d < R → repulsionMagnitude d R S = (1 - d / R) * S) ∧
    (∀ d, R ≤ d → repulsionMagnitude d R S = 0) ∧
    (∀ d1 d2, 0 ≤ d1 → d1 ≤ d2 → repulsionMagnitude d2 R S ≤ repulsionMagnitude d1 R S) ∧
    repulsionMagnitude 0 R S = S ∧
    Filter.Tendsto (fun d => repulsionMagnitude d R S) (nhds 0) (nhds S) := by
  have hlt : ∀ d, d < R → repulsionMagnitude d R S = (1 - d / R) * S := by
    intro d h
    simp [repulsionMagnitude, if_pos h]
  have hge : ∀ d, R ≤ d → repulsionMagnitude d R S = 0 := by
    intro d h
    simp [repulsionMagnitude, not_lt.mpr h]
  have hnonneg : ∀ d, d < R → 0 ≤ repulsionMagnitude d R S := by
    intro d h
    rw [hlt d h]
    refine mul_nonneg ?_ hS
    have hd1 : d / R < 1 := (div_lt_one hR).mpr h
    linarith
  refine ⟨hlt, hge, ?_, ?_, ?_⟩
  · intro d1 d2 h0 h12
    by_cases h2 : d2 < R
    · have h1 : d1 < R := lt_of_le_of_lt h12 h2
      rw [hlt d1 h1, hlt d2 h2]
      refine mul_le_mul_of_nonneg_right ?_ hS
      have hdiv : d1 / R ≤ d2 / R := by gcongr
      linarith
    · rw [hge d2 (not_lt.mp h2)]
      by_cases h1 : d1 < R
      · exact hnonneg d1 h1
      · rw [hge d1 (not_lt.mp h1)]
  · rw [hlt 0 hR]
    simp
  · have hcont : Filter.Tendsto (fun d : ℝ => (1 - d / R) * S) (nhds 0) (nhds S) := by
      have h1 : Continuous fun d : ℝ => (1 - d / R) * S := by fun_prop
      have h2 := h1.tendsto 0
      simpa using h2
    refine hcont.congr' ?_
    filter_upwards [Iio_mem_nhds hR] with d hd
    exact (hlt d hd).symm

/-- Witness for `repulsion_magnitude_profile` at the source defaults
(radius 0.8, strength 0.5) and concrete distances. -/
theorem repulsion_magnitude_profile_witness :
    repulsionMagnitude 0.4 0.8 0.5 = (1 - 0.4 / 0.8) * 0.5 ∧
    repulsionMagnitude 1.2 0.8 0.5 = 0 ∧
    repulsionMagnitude 0 0.8 0.5 = 0.5 := by
  have h := repulsion_magnitude_profile 0.8 0.5 (by norm_num) (by norm_num)
  exact ⟨h.1 0.4 (by norm_num), h.2.1 1.2 (by norm_num), h.2.2.2.1⟩

/-- Claim C2 (the code contradicts it): at screen distance exactly `0` from
the cursor, the shader normalizes the zero vector, so the undefined value
propagates into both displaced screen-plane coordinates, while the repulsion
magnitude there is the full strength `0.5`, not `0`. -/
theorem zero_distance_undefined :
    (vertexShaderRun 1 1 cursorOnParticle (0, 0, 0) 0).finalPos.1 = none ∧
    (vertexShaderRun 1 1 cursorOnParticle (0, 0, 0) 0).finalPos.2.1 = none ∧
    repulsionMagnitude 0 0.8 0.5 = 0.5 := by
  refine ⟨?_, ?_, ?_⟩
  · simp [vertexShaderRun, Matrix.one_mulVec, vec4of, cursorOnParticle, glslNormalize]
  · simp [vertexShaderRun, Matrix.one_mulVec, vec4of, cursorOnParticle, glslNormalize]
  · norm_num [repulsionMagnitude]

/-- Claim C6: the output color is the linear interpolation between `uColor1`
and `uColor2` with a factor depending only on the rest y-coordinate — two
invocations agreeing on the colors and the rest height agree on the color,
whatever the matrices, cursor, time, seed and the other rest coordinates — and
the interpolation is Lipschitz in the rest height, each color component
differing by exactly the component spread over 3 times the height difference. -/
theorem vertex_color_rest_height (P Pb MV MVb : Mat4) (U Ub : Uniforms)
    (rest restb : Vec3) (seed seedb : ℝ)
    (hc1 : U.uColor1 = Ub.uColor1) (hc2 : U.uColor2 = Ub.uColor2)
    (hy : rest.2.1 = restb.2.1) :
    (vertexShaderRun P MV U rest seed).vColor = (vertexShaderRun Pb MVb Ub restb seedb).vColor ∧
    ∀ c1 c2 : Vec3, ∀ y yb : ℝ,
      |(vertexColor c1 c2 y).1 - (vertexColor c1 c2 yb).1| = |c2.1 - c1.1| / 3 * |y - yb| ∧
      |(vertexColor c1 c2 y).2.1 - (vertexColor c1 c2 yb).2.1| =
        |c2.2.1 - c1.2.1| / 3 * |y - yb| ∧
      |(vertexColor c1 c2 y).2.2 - (vertexColor c1 c2 yb).2.2| =
        |c2.2.2 - c1.2.2| / 3 * |y - yb| := by
  constructor
  · simp [vertexShaderRun, hc1, hc2, hy]
  · intro c1 c2 y yb
    have key : ∀ a b : ℝ,
        |glslMix a b ((y + 1.5) / 3) - glslMix a b ((yb + 1.5) / 3)| =
          |b - a| / 3 * |y - yb| := by
      intro a b
      have h1 : glslMix a b ((y + 1.5) / 3) - glslMix a b ((yb + 1.5) / 3) =
          (b - a) * ((y - yb) / 3) := by
        simp only [glslMix]
        ring
      rw [h1, abs_mul, abs_div, abs_of_pos (by norm_num : (0 : ℝ) < 3)]
      ring
    exact ⟨key c1.1 c2.1, key c1.2.1 c2.2.1, key c1.2.2 c2.2.2⟩

/-- Witness for `vertex_color_rest_height`: concrete invocations differing in
matrices, cursor, radius, strength, seed and the rest x and z coordinates but
sharing colors and rest height agree on the color, and a concrete Lipschitz
instance. -/
theorem vertex_color_rest_height_witness :
    (vertexShaderRun 1 1 uniformsA (0.3, 0.4, 0.6) 7).vColor =
      (vertexShaderRun 1 1 uniformsB (-0.2, 0.4, 0.1) 3).vColor ∧
    |(vertexColor (1, 0, 0.5) (0, 1, 1) 0.4).1 - (vertexColor (1, 0, 0.5) (0, 1, 1) 0.7).1| =
      |(0 : ℝ) - 1| / 3 * |(0.4 : ℝ) - 0.7| :=
  ⟨(vertex_color_rest_height 1 1 1 1 uniformsA uniformsB (0.3, 0.4, 0.6) (-0.2, 0.4, 0.1)
      7 3 rfl rfl rfl).1,
   ((vertex_color_rest_height 1 1 1 1 uniformsA uniformsB (0.3, 0.4, 0.6) (-0.2, 0.4, 0.1)
      7 3 rfl rfl rfl).2 (1, 0, 0.5) (0, 1, 1) 0.4 0.7).1⟩

/-- Helper: the GLSL length of a vector with vanishing second component and
nonnegative first component is that component. -/
theorem glslLength2_of_nonneg (x : ℝ) (hx : 0 ≤ x) : glslLength2 (x, 0) = x := by
  rw [glslLength2]
  show Real.sqrt (x ^ 2 + (0 : ℝ) ^ 2) = x
  rw [show x ^ 2 + (0 : ℝ) ^ 2 = x ^ 2 by ring, Real.sqrt_sq hx]

/-- Claim C7: a fragment at sprite-local distance 0.4 from the sprite center
gets alpha exactly 1; at distance 0.48 an alpha strictly between 0 and 1; at
distance 0.6 an alpha below the discard epsilon 0.01, and the fragment is
discarded whatever its color. -/
theorem frag_alpha_mask :
    glslLength2 ((0.9, 0.5) - ((0.5 : ℝ), (0.5 : ℝ))) = 0.4 ∧
    fragAlpha (0.9, 0.5) = 1 ∧
    glslLength2 ((0.98, 0.5) - ((0.5 : ℝ), (0.5 : ℝ))) = 0.48 ∧
    0 < fragAlpha (0.98, 0.5) ∧ fragAlpha (0.98, 0.5) < 1 ∧
    glslLength2 ((1.1, 0.5) - ((0.5 : ℝ), (0.5 : ℝ))) = 0.6 ∧
    fragAlpha (1.1, 0.5) < 0.01 ∧
    ∀ c : Vec3, fragOutput c (1.1, 0.5) = none := by
  have hsub1 : ((0.9, 0.5) - ((0.5 : ℝ), (0.5 : ℝ))) = ((0.4 : ℝ), (0 : ℝ)) := by
    rw [Prod.mk_sub_mk]
    norm_num
  have hsub2 : ((0.98, 0.5) - ((0.5 : ℝ), (0.5 : ℝ))) = ((0.48 : ℝ), (0 : ℝ)) := by
    rw [Prod.mk_sub_mk]
    norm_num
  have hsub3 : ((1.1, 0.5) - ((0.5 : ℝ), (0.5 : ℝ))) = ((0.6 : ℝ), (0 : ℝ)) := by
    rw [Prod.mk_sub_mk]
    norm_num
  have hl1 : glslLength2 ((0.9, 0.5) - ((0.5 : ℝ), (0.5 : ℝ))) = 0.4 := by
    rw [hsub1]
    exact glslLength2_of_nonneg 0.4 (by norm_num)
  have hl2 : glslLength2 ((0.98, 0.5) - ((0.5 : ℝ), (0.5 : ℝ))) = 0.48 := by
    rw [hsub2]
    exact glslLength2_of_nonneg 0.48 (by norm_num)
  have hl3 : glslLength2 ((1.1, 0.5) - ((0.5 : ℝ), (0.5 : ℝ))) = 0.6 := by
    rw [hsub3]
    exact glslLength2_of_nonneg 0.6 (by norm_num)
  have hs1 : smoothstep 0.45 0.5 0.4 = 0 := by
    have harg : ((0.4 : ℝ) - 0.45) / (0.5 - 0.45) = -1 := by norm_num
    simp only [smoothstep, glslClamp, harg]
    rw [max_eq_right (by norm_num : (-1 : ℝ) ≤ 0), min_eq_left (by norm_num : (0 : ℝ) ≤ 1)]
    ring
  have hs2 : smoothstep 0.45 0.5 0.48 = 0.648 := by
    have harg : ((0.48 : ℝ) - 0.45) / (0.5 - 0.45) = 0.6 := by norm_num
    simp only [smoothstep, glslClamp, harg]
    rw [max_eq_left (by norm_num : (0 : ℝ) ≤ 0.6), min_eq_left (by norm_num : (0.6 : ℝ) ≤ 1)]
    norm_num
  have hs3 : smoothstep 0.45 0.5 0.6 = 1 := by
    have harg : ((0.6 : ℝ) - 0.45) / (0.5 - 0.45) = 3 := by norm_num
    simp only [smoothstep, glslClamp, harg]
    rw [max_eq_left (by norm_num : (0 : ℝ) ≤ 3), min_eq_right (by norm_num : (1 : ℝ) ≤ 3)]
    norm_num
  have ha1 : fragAlpha (0.9, 0.5) = 1 := by
    rw [fragAlpha, hl1, hs1]
    norm_num
  have ha2 : fragAlpha (0.98, 0.5) = 0.352 := by
    rw [fragAlpha, hl2, hs2]
    norm_num
  have ha3 : fragAlpha (1.1, 0.5) = 0 := by
    rw [fragAlpha, hl3, hs3]
    norm_num
  refine ⟨hl1, ha1, hl2, ?_, ?_, hl3, ?_, ?_⟩
  · rw [ha2]; norm_num
  · rw [ha2]; norm_num
  · rw [ha3]; norm_num
  · intro c
    rw [fragOutput, if_pos (by rw [ha3]; norm_num)]

/-- Claim C8: the cursor-repulsion step leaves z alone — the z component of the
displaced position before reprojection equals the rest z plus only the
breathing term, and is unchanged under any change of the cursor, interaction
radius and repulsion strength uniforms that keeps the time. -/
theorem repulsion_preserves_z (P MV : Mat4) (U Ub : Uniforms) (rest : Vec3) (seed : ℝ)
    (ht : Ub.uTime = U.uTime) :
    (vertexShaderRun P MV U rest seed).finalPos.2.2 =
      rest.2.2 + Real.sin (U.uTime * 0.5 + seed * 10) * 0.01 ∧
    (vertexShaderRun P MV Ub rest seed).finalPos.2.2 =
      (vertexShaderRun P MV U rest seed).finalPos.2.2 := by
  constructor
  · simp [vertexShaderRun, breathZ]
  · simp [vertexShaderRun, breathZ, ht]

/-- Witness for `repulsion_preserves_z`: uniforms differing in cursor, radius
and strength but not time give the same displaced z, which is the rest z plus
the breathing term. -/
theorem repulsion_preserves_z_witness :
    (vertexShaderRun 1 1 uniformsA (0.3, 0.4, 0.6) 7).finalPos.2.2 =
      0.6 + Real.sin ((2 : ℝ) * 0.5 + 7 * 10) * 0.01 ∧
    (vertexShaderRun 1 1 uniformsB (0.3, 0.4, 0.6) 7).finalPos.2.2 =
      (vertexShaderRun 1 1 uniformsA (0.3, 0.4, 0.6) 7).finalPos.2.2 :=
  repulsion_preserves_z 1 1 uniformsA uniformsB (0.3, 0.4, 0.6) 7 rfl

/-- Claim C9: the displacement/shading stage is deterministic and stateless —
both shader stages are pure functions of the per-particle attributes, the
per-frame uniforms and the camera matrices, so two invocations on identical
inputs produce identical outputs. -/
theorem stage_deterministic (P Pb MV MVb : Mat4) (U Ub : Uniforms) (rest restb : Vec3)
    (seed seedb : ℝ) (c cb : Vec3) (pc pcb : Vec2)
    (hP : P = Pb) (hMV : MV = MVb) (hU : U = Ub) (hrest : rest = restb)
    (hseed : seed = seedb) (hc : c = cb) (hpc : pc = pcb) :
    vertexShaderRun P MV U rest seed = vertexShaderRun Pb MVb Ub restb seedb ∧
    fragOutput c pc = fragOutput cb pcb := by
  subst hP hMV hU hrest hseed hc hpc
  exact ⟨rfl, rfl⟩

/-- Witness for `stage_deterministic` at concrete inputs. -/
theorem stage_deterministic_witness :
    vertexShaderRun 1 1 uniformsA (0.3, 0.4, 0.6) 7 =
      vertexShaderRun 1 1 uniformsA (0.3, 0.4, 0.6) 7 ∧
    fragOutput (1, 0, 0.5) (0.7, 0.5) = fragOutput (1, 0, 0.5) (0.7, 0.5) :=
  stage_deterministic 1 1 1 1 uniformsA uniformsA (0.3, 0.4, 0.6) (0.3, 0.4, 0.6) 7 7
    (1, 0, 0.5) (1, 0, 0.5) (0.7, 0.5) (0.7, 0.5) rfl rfl rfl rfl rfl rfl rfl

/-- Claim C10: the breathing offsets added to x and z are the same expression
`sin(0.5 * time + 10 * seed) * 0.01`, the displaced z is the rest z plus that
offset, and every breathing offset has magnitude at most 0.01. -/
theorem breathing_offsets (t a : ℝ) :
    breathX t a = breathZ t a ∧
    breathX t a = Real.sin (t * 0.5 + a * 10) * 0.01 ∧
    (∀ (P MV : Mat4) (U : Uniforms) (rest : Vec3),
      (vertexShaderRun P MV U rest a).finalPos.2.2 = rest.2.2 + breathZ U.uTime a) ∧
    |breathX t a| ≤ 0.01 ∧ |breathY t a| ≤ 0.01 ∧ |breathZ t a| ≤ 0.01 := by
  have hsin : |Real.sin (t * 0.5 + a * 10) * 0.01| ≤ 0.01 := by
    rw [abs_mul]
    calc |Real.sin (t * 0.5 + a * 10)| * |(0.01 : ℝ)|
        ≤ 1 * |(0.01 : ℝ)| :=
          mul_le_mul_of_nonneg_right (Real.abs_sin_le_one _) (abs_nonneg _)
      _ = 0.01 := by norm_num
  have hcos : |Real.cos (t * 0.5 + a * 10) * 0.01| ≤ 0.01 := by
    rw [abs_mul]
    calc |Real.cos (t * 0.5 + a * 10)| * |(0.01 : ℝ)|
        ≤ 1 * |(0.01 : ℝ)| :=
          mul_le_mul_of_nonneg_right (Real.abs_cos_le_one _) (abs_nonneg _)
      _ = 0.01 := by norm_num
  refine ⟨rfl, rfl, ?_, hsin, hcos, hsin⟩
  intro P MV U rest
  simp [vertexShaderRun]

/-- Helper: the live count after any prefix of a trace is bounded by the
maximal live count along the whole trace. -/
theorem liveAfter_take_le_maxLive (tr : List RegenEvent) : ∀ s n : ℕ,
    liveAfter s (tr.take n) ≤ maxLive s tr := by
  induction tr with
  | nil =>
    intro s n
    simp [List.take_nil, liveAfter, maxLive]
  | cons e tr ih =>
    intro s n
    cases n with
    | zero =>
      simp only [List.take_zero, liveAfter, maxLive]
      exact le_max_left _ _
    | succ m =>
      simp only [List.take_succ_cons, liveAfter, maxLive]
      exact le_trans (ih (stepLive s e) m) (le_max_right _ _)

/-- Claim C3 counterexample: the trace of `createParticles` when an old field
exists does not build the new field before releasing the old one — the
disposals of the old geometry and material (lines 93-94) precede the
construction of the new field (lines 97-146). -/
theorem regen_not_build_then_swap_then_release :
    ¬ BuildThenSwapThenRelease (createParticlesTrace true) := by
  unfold BuildThenSwapThenRelease createParticlesTrace
  decide

/-- Claim C3 amended: `createParticles` first removes the old field and
disposes its GPU resources, then builds the new field, and installs it in the
scene only after it is fully built; every disposal precedes every build step,
every build step precedes the install, and after every prefix of the trace at
most one field is live in the scene. -/
theorem regen_dispose_then_build_then_install (b : Bool) :
    createParticlesTrace true =
      [RegenEvent.removeOld, RegenEvent.disposeOldGeometry, RegenEvent.disposeOldMaterial,
       RegenEvent.buildGeometry, RegenEvent.buildMaterial, RegenEvent.installNew] ∧
    createParticlesTrace false =
      [RegenEvent.buildGeometry, RegenEvent.buildMaterial, RegenEvent.installNew] ∧
    (∀ i j : Fin (createParticlesTrace b).length,
      isDispose ((createParticlesTrace b).get i) = true →
      isBuild ((createParticlesTrace b).get j) = true → i < j) ∧
    (∀ i j : Fin (createParticlesTrace b).length,
      isBuild ((createParticlesTrace b).get i) = true →
      (createParticlesTrace b).get j = RegenEvent.installNew → i < j) ∧
    (∀ n : ℕ, liveAfter (if b then 1 else 0) ((createParticlesTrace b).take n) ≤ 1) := by
  refine ⟨by decide, by decide, ?_, ?_, ?_⟩
  · cases b <;> decide
  · cases b <;> decide
  · intro n
    refine le_trans (liveAfter_take_le_maxLive _ _ n) ?_
    cases b <;> decide

/-- Helper: the flat `positions` array of the generated field holds three
scalars per particle. -/
theorem genField_positions_length (rand : ℕ → ℝ) (N : ℕ) :
    (genField rand N).positions.length = 3 * N := by
  induction N with
  | zero => rfl
  | succ n ih =>
    simp only [genField, List.length_append, ih, List.length_cons, List.length_nil]
    omega

/-- Helper: the flat `restingPositions` array of the generated field holds
three scalars per particle. -/
theorem genField_restingPositions_length (rand : ℕ → ℝ) (N : ℕ) :
    (genField rand N).restingPositions.length = 3 * N := by
  induction N with
  | zero => rfl
  | succ n ih =>
    simp only [genField, List.length_append, ih, List.length_cons, List.length_nil]
    omega

/-- Helper: the `randoms` array of the generated field holds one scalar per
particle. -/
theorem genField_randoms_length (rand : ℕ → ℝ) (N : ℕ) :
    (genField rand N).randoms.length = N := by
  induction N with
  | zero => rfl
  | succ n ih =>
    simp only [genField, List.length_append, ih, List.length_cons, List.length_nil]

/-- Helper: particle `i` of the generated field rests at the position computed
by iteration `i` of the loop. -/
theorem genField_restTriple (rand : ℕ → ℝ) : ∀ N i, i < N →
    restTriple (genField rand N) i = genCoords rand i := by
  intro N
  induction N with
  | zero => intro i h; omega
  | succ n ih =>
    intro i h
    have hlen : (genField rand n).restingPositions.length = 3 * n :=
      genField_restingPositions_length rand n
    rcases Nat.lt_succ_iff_lt_or_eq.mp h with h1 | h2
    · rw [restTriple]
      simp only [genField]
      rw [List.getD_append _ _ _ _ (by rw [hlen]; omega),
          List.getD_append _ _ _ _ (by rw [hlen]; omega),
          List.getD_append _ _ _ _ (by rw [hlen]; omega)]
      have hrec := ih i h1
      rw [restTriple] at hrec
      exact hrec
    · subst h2
      rw [restTriple]
      simp only [genField]
      rw [List.getD_append_right _ _ _ _ (by rw [hlen]),
          List.getD_append_right _ _ _ _ (by rw [hlen]; omega),
          List.getD_append_right _ _ _ _ (by rw [hlen]; omega), hlen]
      have e1 : 3 * i - 3 * i = 0 := by omega
      have e2 : 3 * i + 1 - 3 * i = 1 := by omega
      have e3 : 3 * i + 2 - 3 * i = 2 := by omega
      rw [e1, e2, e3]
      simp [List.getD]

/-- Helper: the random seed of particle `i` of the generated field is the
final draw of iteration `i` of the loop. -/
theorem genField_randoms_getD (rand : ℕ → ℝ) : ∀ N i, i < N →
    (genField rand N).randoms.getD i 0 = rand (4 * i + 3) := by
  intro N
  induction N with
  | zero => intro i h; omega
  | succ n ih =>
    intro i h
    have hlen : (genField rand n).randoms.length = n := genField_randoms_length rand n
    rcases Nat.lt_succ_iff_lt_or_eq.mp h with h1 | h2
    · simp only [genField]
      rw [List.getD_append _ _ _ _ (by rw [hlen]; omega)]
      exact ih i h1
    · subst h2
      simp only [genField]
      rw [List.getD_append_right _ _ _ _ (by rw [hlen]), hlen]
      have e1 : i - i = 0 := by omega
      rw [e1]
      simp [List.getD]

/-- Claim C4: for every particle count `N` in the allowed range
`[10000, 200000]`, the generator yields 3N scalars in each of the two position
arrays and N random seeds, and for every index `i < N` the rest position and
the random seed of particle `i` come from the draws of the same loop
iteration `i`. -/
theorem gen_field_invariants (rand : ℕ → ℝ) (N : ℕ)
    (_hlo : 10000 ≤ N) (_hhi : N ≤ 200000) :
    (genField rand N).positions.length = 3 * N ∧
    (genField rand N).restingPositions.length = 3 * N ∧
    (genField rand N).randoms.length = N ∧
    ∀ i, i < N → restTriple (genField rand N) i = genCoords rand i ∧
      (genField rand N).randoms.getD i 0 = rand (4 * i + 3) :=
  ⟨genField_positions_length rand N, genField_restingPositions_length rand N,
   genField_randoms_length rand N,
   fun i h => ⟨genField_restTriple rand N i h, genField_randoms_getD rand N i h⟩⟩

/-- Witness for `gen_field_invariants` at the lower bound of the allowed
range with the constant-zero random stream, inspecting particle 5. -/
theorem gen_field_invariants_witness :
    (genField (fun _ => 0) 10000).positions.length = 3 * 10000 ∧
    (genField (fun _ => 0) 10000).restingPositions.length = 3 * 10000 ∧
    (genField (fun _ => 0) 10000).randoms.length = 10000 ∧
    restTriple (genField (fun _ => 0) 10000) 5 = genCoords (fun _ => 0) 5 ∧
    (genField (fun _ => 0) 10000).randoms.getD 5 0 = (fun _ => (0 : ℝ)) (4 * 5 + 3) := by
  have h := gen_field_invariants (fun _ => 0) 10000 (by norm_num) (by norm_num)
  exact ⟨h.1, h.2.1, h.2.2.1, (h.2.2.2 5 (by norm_num)).1, (h.2.2.2 5 (by norm_num)).2⟩

/-- Claim C5: whatever values the uniform draws take, as long as the radial
draw lies in `[0, 1)`, the generated rest position lies within the sphere:
its Euclidean norm is at most `arrangementRadius`. -/
theorem gen_coords_norm_le (rand : ℕ → ℝ) (i : ℕ)
    (h0 : 0 ≤ rand (4 * i + 2)) (h1 : rand (4 * i + 2) < 1) :
    norm3 (genCoords rand i) ≤ arrangementRadius := by
  have hcb0 : 0 ≤ cbrt (rand (4 * i + 2)) := by
    rw [cbrt, if_pos h0]
    exact Real.rpow_nonneg h0 _
  have hcb1 : cbrt (rand (4 * i + 2)) ≤ 1 := by
    rw [cbrt, if_pos h0]
    exact Real.rpow_le_one h0 h1.le (by norm_num)
  have hrad : (0 : ℝ) ≤ arrangementRadius := by
    rw [arrangementRadius]
    norm_num
  simp only [norm3, genCoords]
  set theta := rand (4 * i) * (2 * Real.pi) with htheta
  set phi := Real.arccos (rand (4 * i + 1) * 2 - 1) with hphi
  set r := arrangementRadius * cbrt (rand (4 * i + 2)) with hrdef
  have hr0 : 0 ≤ r := mul_nonneg hrad hcb0
  have hrle : r ≤ arrangementRadius := by
    calc r = arrangementRadius * cbrt (rand (4 * i + 2)) := hrdef
      _ ≤ arrangementRadius * 1 := mul_le_mul_of_nonneg_left hcb1 hrad
      _ = arrangementRadius := mul_one _
  have key : (r * Real.sin phi * Real.cos theta) ^ 2 +
      (r * Real.sin phi * Real.sin theta) ^ 2 + (r * Real.cos phi) ^ 2 = r ^ 2 := by
    have hth : Real.sin theta ^ 2 + Real.cos theta ^ 2 = 1 := Real.sin_sq_add_cos_sq theta
    have hph : Real.sin phi ^ 2 + Real.cos phi ^ 2 = 1 := Real.sin_sq_add_cos_sq phi
    linear_combination (r ^ 2 * Real.sin phi ^ 2) * hth + r ^ 2 * hph
  rw [key, Real.sqrt_sq hr0]
  exact hrle

/-- Witness for `gen_coords_norm_le` with the constant-zero random stream at
iteration 0. -/
theorem gen_coords_norm_le_witness :
    norm3 (genCoords (fun _ => 0) 0) ≤ arrangementRadius :=
  gen_coords_norm_le (fun _ => 0) 0 (by norm_num) (by norm_num)
